import Mathlib

/-!
Verification of the cache synchronization module of nix-software-center
(src/parse/cache.rs), as a shallow embedding in Lean 4.

Strings from the Rust code are modelled as lists of characters (`Str`).
Rust indexes `str` slices by bytes; all version strings, revision hashes
and marker contents handled by this module are ASCII, for which byte
indices and character indices coincide, so `List.take` / `List.drop`
faithfully model the byte slicing done by the code.

External effects (spawned processes, HTTP requests, brotli decompression)
are modelled as oracle values supplied to each routine; the cache
directory is modelled as a record of the eight files the module touches,
each `Option Str` (`none` = the file is absent).  A Rust `panic!`
(from `unwrap`/`expect`/out-of-bounds slicing) is the `Outcome.crash`
result, distinct from a returned `Err` (`Outcome.err`).
-/

/-- Strings modelled as character lists (ASCII ⇒ byte-faithful). -/
abbrev Str : Type := List Char

/-- Embed a Lean string literal into the model. -/
def lit (s : String) : Str := s.data

/-- Length (byte length for ASCII strings). -/
def Str.len (s : Str) : Nat := List.length s

/-- Whitespace as trimmed by Rust `str::trim` (ASCII fragment). -/
def isWS (c : Char) : Bool := c = ' ' || c = '\n' || c = '\t' || c = '\r'

/-- Model of Rust `str::trim`: strip whitespace from both ends. -/
def trimStr (s : Str) : Str :=
  ((List.dropWhile isWS s).reverse.dropWhile isWS).reverse

/-- Model of Rust `String::replace('"', "")`: drop every double quote. -/
def removeQuotes (s : Str) : Str := List.filter (fun c => c ≠ '"') s

/-- Model of Rust `str::split(c)`: split at every occurrence of `c`,
keeping empty pieces (so the result is always nonempty). -/
def splitOnC (c : Char) : Str → List Str
  | [] => [[]]
  | a :: rest =>
    let r := splitOnC c rest
    if a = c then [] :: r
    else
      match r with
      | [] => [[a]]
      | h :: t => (a :: h) :: t

/-- Model of `Vec::join(sep)` for string pieces. -/
def joinWith (sep : Str) : List Str → Str
  | [] => []
  | [x] => x
  | x :: xs => x ++ sep ++ joinWith sep xs

/-- Model of the Rust byte slice `s[0..n]`: `none` models the panic when
`n` is out of bounds. -/
def sliceTo (s : Str) (n : Nat) : Option Str :=
  if n ≤ s.len then some (List.take n s) else none

/-- Model of the Rust byte slice `s[a..b]`: `none` models the panic when
the range is out of bounds. -/
def sliceFromTo (s : Str) (a b : Nat) : Option Str :=
  if a ≤ b ∧ b ≤ s.len then some (List.drop a (List.take b s)) else none

/-- Model of Rust `str::get(..n)`: in-bounds slicing without panicking. -/
def getTo (s : Str) (n : Nat) : Option Str :=
  if n ≤ s.len then some (List.take n s) else none

/-- Model of `str::strip_prefix(p).unwrap_or(s)`: drop a leading `p`
when present, otherwise return the string unchanged. -/
def dropPre (p s : Str) : Str :=
  if List.take p.len s = p then List.drop p.len s else s

/-- Model of `str::strip_suffix(suf).unwrap_or(s)`: drop a trailing
`suf` when present, otherwise return the string unchanged. -/
def dropSuf (suf s : Str) : Str :=
  if List.drop (s.len - suf.len) s = suf ∧ suf.len ≤ s.len then
    List.take (s.len - suf.len) s
  else s

/-- Release-identifier derivation of `setuplegacypkgscache` and
`setupupdatecache` (cache.rs lines 198-204 / 402-408):
`dlver.split('.').join(".")[0..5].trim()`, overridden to "unstable"
when `dlver.len() >= 8 && dlver[5..8] == "pre"`.  `none` models the
slice panic when the version string is shorter than 5 bytes. -/
def relverLegacy (dlver : Str) : Option Str :=
  match sliceTo (joinWith (lit ".") (splitOnC '.' dlver)) 5 with
  | none => none
  | some s =>
    if 8 ≤ dlver.len ∧ sliceFromTo dlver 5 8 = some (lit "pre") then
      some (lit "unstable")
    else
      some (trimStr s)

/-- Release-identifier derivation of `setupnewestver` (cache.rs lines
465-469): as `relverLegacy` but without the trailing `.trim()`. -/
def relverNewest (version : Str) : Option Str :=
  match sliceTo (joinWith (lit ".") (splitOnC '.' version)) 5 with
  | none => none
  | some s =>
    if 8 ≤ version.len ∧ sliceFromTo version 5 8 = some (lit "pre") then
      some (lit "unstable")
    else
      some s

/-- Release-identifier derivation of `setupflakepkgscache` (cache.rs
lines 264-267): `dlver.split('.')[0..2].join(".")`, forced to
"unstable" when it equals "22.11".  `none` models the vector slice
panic when the version has fewer than two dot-components. -/
def relverFlake (dlver : Str) : Option Str :=
  let parts := splitOnC '.' dlver
  if 2 ≤ parts.length then
    let r := joinWith (lit ".") (List.take 2 parts)
    some (if r = lit "22.11" then lit "unstable" else r)
  else none

/-- Release-identifier derivation of `getlatestpkgs` (cache.rs line
138-141): `dlver.split('.')[0..2].join(".")[0..5]`, forced to
"unstable" when it equals "22.11".  `none` models either slice panic. -/
def relverLatest (dlver : Str) : Option Str :=
  let parts := splitOnC '.' dlver
  if 2 ≤ parts.length then
    match sliceTo (joinWith (lit ".") (List.take 2 parts)) 5 with
    | none => none
    | some r => some (if r = lit "22.11" then lit "unstable" else r)
  else none

/-! ## Cache directory state -/

/-- The eight files of the cache directory touched by cache.rs. -/
inductive FileId : Type
  | chnver
  | sysver
  | newver
  | flakever
  | profilever
  | packagesJson
  | syspackagesJson
  | profilepackagesJson
deriving DecidableEq

/-- A marker file in the sense of the spec (guards a catalog file). -/
def FileId.isMarker : FileId → Bool
  | .chnver | .sysver | .newver | .flakever | .profilever => true
  | _ => false

/-- The cache directory contents: each field holds the file content, or
`none` when the file is absent. -/
structure CacheFiles : Type where
  chnver : Option Str
  sysver : Option Str
  newver : Option Str
  flakever : Option Str
  profilever : Option Str
  packagesJson : Option Str
  syspackagesJson : Option Str
  profilepackagesJson : Option Str
deriving DecidableEq

/-- Read a file (`Path::exists` + `fs::read_to_string`). -/
def CacheFiles.get (fs : CacheFiles) : FileId → Option Str
  | .chnver => fs.chnver
  | .sysver => fs.sysver
  | .newver => fs.newver
  | .flakever => fs.flakever
  | .profilever => fs.profilever
  | .packagesJson => fs.packagesJson
  | .syspackagesJson => fs.syspackagesJson
  | .profilepackagesJson => fs.profilepackagesJson

/-- Write (`some`) or remove (`none`) a file. -/
def CacheFiles.set (fs : CacheFiles) (f : FileId) (v : Option Str) : CacheFiles :=
  match f with
  | .chnver => { fs with chnver := v }
  | .sysver => { fs with sysver := v }
  | .newver => { fs with newver := v }
  | .flakever => { fs with flakever := v }
  | .profilever => { fs with profilever := v }
  | .packagesJson => { fs with packagesJson := v }
  | .syspackagesJson => { fs with syspackagesJson := v }
  | .profilepackagesJson => { fs with profilepackagesJson := v }

theorem CacheFiles.set_get_self (fs : CacheFiles) (f : FileId) :
    fs.set f (fs.get f) = fs := by
  cases fs; cases f <;> rfl

/-! ## Effects, outcomes and oracles -/

/-- Observable side effects of one routine call, in order. -/
inductive Event : Type
  | write (f : FileId) (content : Str)
  | remove (f : FileId)
  | dl (dest : FileId)
  | search (path : Str)
deriving DecidableEq

/-- Whether an event is a catalog fetch (`dlfile` invocation). -/
def Event.isDl : Event → Bool
  | .dl _ => true
  | _ => false

/-- Whether an event writes a marker file. -/
def Event.isMarkerWrite : Event → Bool
  | .write f _ => f.isMarker
  | _ => false

/-- The error taxonomy of the module (spec §7). -/
inductive CacheErr : Type
  | process
  | parse
  | network
  | download
  | io
deriving DecidableEq

/-- Result of a routine: `Ok`, a propagated `Err`, or a Rust panic. -/
inductive Outcome (α : Type) : Type
  | ok (a : α)
  | err (e : CacheErr)
  | crash
deriving DecidableEq

/-- An HTTP response: status success flag, body text, and the final URL
after redirects (only `setupnewestver` inspects the URL). -/
structure HttpResp : Type where
  success : Bool
  body : Str
  finalUrl : Str
deriving DecidableEq

/-- Result of the brotli decompression loop of `dlfile`: either the full
decompressed content, or a read error after a partial prefix was
already written to the destination. -/
inductive Decomp : Type
  | done (content : Str)
  | bad (written : Str)
deriving DecidableEq

/-- Outcome of an external command whose stdout passes through
`String::from_utf8` (which can fail) before use. -/
inductive CmdOut : Type
  | cmdFail
  | utf8Fail
  | outOk (stdout : Str)
deriving DecidableEq

/-- The fields of a parsed `nixos-version --json` document as consumed
by the code: outer `Option` is key presence, inner `Option` is whether
the value is a JSON string. -/
structure VersionJson : Type where
  nixosVersion : Option (Option Str)
  nixpkgsRevision : Option (Option Str)
deriving DecidableEq

/-- Outcome of running `nixos-version --json` and `serde_json`-parsing
its stdout. -/
inductive CmdJson : Type
  | cmdFail
  | parseFail
  | parsed (v : VersionJson)
deriving DecidableEq

/-! ## dlfile (CatalogFetcher, cache.rs lines 503-546) -/

/-- Model of `dlfile(url, path)`: on a reqwest error the `?` propagates
a network error; on a non-success status it returns a download error
without touching the destination; on success it creates the destination
and streams the brotli-decompressed body into it (a mid-stream read
error leaves the partial prefix and propagates an I/O error). -/
def dlfile (resp : Except Unit HttpResp) (dec : Str → Decomp)
    (path : FileId) (fs : CacheFiles) : Outcome Unit × CacheFiles :=
  match resp with
  | .error _ => (.err .network, fs)
  | .ok r =>
    if r.success then
      match dec r.body with
      | .done c => (.ok (), fs.set path (some c))
      | .bad p => (.err .io, fs.set path (some p))
    else
      (.err .download, fs)

/-! ## Refresh routines -/

/-- Oracle inputs of `setuplegacypkgscache`: the `nix-instantiate`
stdout (read via lossy UTF-8, which cannot fail), and the catalog
download response/decompression. -/
structure LegacyOracle : Type where
  cmd : Except Unit Str
  resp : Except Unit HttpResp
  dec : Str → Decomp

/-- `setuplegacypkgscache` (cache.rs lines 180-243).  Returns the
outcome, the final cache directory state, and the event trace. -/
def setuplegacypkgscache (o : LegacyOracle) (fs : CacheFiles) :
    Outcome Unit × CacheFiles × List Event :=
  match o.cmd with
  | .error _ => (.err .process, fs, [])
  | .ok stdout =>
    let dlver := trimStr (removeQuotes stdout)
    match relverLegacy dlver with
    | none => (.crash, fs, [])
    | some _relver =>
      let st1 : CacheFiles × List Event :=
        match fs.get .chnver with
        | none => (fs.set .chnver (some dlver), [.write .chnver dlver])
        | some _ => (fs, [])
      let fs1 := st1.1
      let tr1 := st1.2
      if (match fs1.get .chnver with
          | some c => decide (trimStr c = dlver)
          | none => false)
         && (fs1.get .packagesJson).isSome then
        (.ok (), fs1, tr1)
      else
        match fs1.get .chnver with
        | none => (.err .io, fs1, tr1)
        | some _old =>
          let fs2 := (fs1.set .chnver none).set .chnver (some dlver)
          let tr2 := tr1 ++ [.remove .chnver, .write .chnver dlver]
          let r := dlfile o.resp o.dec .packagesJson fs2
          (r.1, r.2, tr2 ++ [.dl .packagesJson])

/-- Oracle inputs of `setupnewestver`: the `nix-instantiate` stdout
(read via `String::from_utf8`, which can fail) and the channel-alias
HTTP response whose final URL is inspected. -/
structure NewestOracle : Type where
  cmd : CmdOut
  resp : Except Unit HttpResp

/-- `setupnewestver` (cache.rs lines 458-501). -/
def setupnewestver (o : NewestOracle) (fs : CacheFiles) :
    Outcome Unit × CacheFiles × List Event :=
  match o.cmd with
  | .cmdFail => (.err .process, fs, [])
  | .utf8Fail => (.err .parse, fs, [])
  | .outOk stdout =>
    let version := removeQuotes stdout
    match relverNewest version with
    | none => (.crash, fs, [])
    | some _relver =>
      match o.resp with
      | .error _ => (.err .network, fs, [])
      | .ok r =>
        match (splitOnC '/' r.finalUrl).getLast? with
        | none => (.ok (), fs, [])
        | some seg =>
          let latest := dropPre (lit "nixos-") seg
          let st1 : CacheFiles × List Event :=
            match fs.get .newver with
            | none => (fs.set .newver (some latest), [.write .newver latest])
            | some _ => (fs, [])
          let fs1 := st1.1
          let tr1 := st1.2
          if (match fs1.get .newver with
              | some c => decide (c = latest)
              | none => false) then
            (.ok (), fs1, tr1)
          else
            match fs1.get .newver with
            | none => (.err .io, fs1, tr1)
            | some _old =>
              let fs2 := (fs1.set .newver none).set .newver (some latest)
              (.ok (), fs2, tr1 ++ [.remove .newver, .write .newver latest])

/-! ## Catalog normalization (CatalogNormalizer) -/

/-- One entry of the raw catalog (cache.rs `NewPackage`). -/
structure NewPackage : Type where
  version : Str
deriving DecidableEq

/-- The raw catalog document (cache.rs `NewPackageBase`): the entries of
the outer "packages" object, as attribute-name/entry pairs. -/
structure NewPackageBase : Type where
  packages : List (Str × NewPackage)
deriving DecidableEq

/-- The normalization loop of `setupupdatecache` (cache.rs lines
449-452): map each package attribute name to its entry's version. -/
def normalizeCatalog (b : NewPackageBase) : List (Str × Str) :=
  b.packages.map (fun p => (p.1, p.2.version))

/-- JSON quoting of a (quote-free) string, for `encodeFlat`. -/
def quoteS (s : Str) : Str := lit "\"" ++ s ++ lit "\""

/-- Model of `simd_json::serde::to_string` on the flat map: the JSON
object with one "name":"version" member per entry. -/
def encodeFlat (m : List (Str × Str)) : Str :=
  lit "\x7b"
    ++ joinWith (lit ",") (m.map (fun p => quoteS p.1 ++ lit ":" ++ quoteS p.2))
    ++ lit "\x7d"

/-- Oracle inputs of `setupupdatecache`: the `nix-instantiate` stdout,
the catalog download response/decompression, and the
`simd_json`-parsing of the fetched file content. -/
structure UpdateOracle : Type where
  cmd : CmdOut
  resp : Except Unit HttpResp
  dec : Str → Decomp
  parse : Str → Except Unit NewPackageBase

/-- `setupupdatecache` (cache.rs lines 390-456): the EnvUpdate refresh
routine, including the normalization pass after a fetch. -/
def setupupdatecache (o : UpdateOracle) (fs : CacheFiles) :
    Outcome Unit × CacheFiles × List Event :=
  match o.cmd with
  | .cmdFail => (.err .process, fs, [])
  | .utf8Fail => (.err .parse, fs, [])
  | .outOk stdout =>
    let dlver := trimStr (removeQuotes stdout)
    match relverLegacy dlver with
    | none => (.crash, fs, [])
    | some _relver =>
      let st1 : CacheFiles × List Event :=
        match fs.get .sysver with
        | none => (fs.set .sysver (some dlver), [.write .sysver dlver])
        | some _ => (fs, [])
      let fs1 := st1.1
      let tr1 := st1.2
      if (match fs1.get .sysver with
          | some c => decide (trimStr c = dlver)
          | none => false)
         && (fs1.get .syspackagesJson).isSome then
        (.ok (), fs1, tr1)
      else
        match fs1.get .sysver with
        | none => (.err .io, fs1, tr1)
        | some _old =>
          let fs2 := (fs1.set .sysver none).set .sysver (some dlver)
          let tr2 := tr1 ++ [.remove .sysver, .write .sysver dlver]
          let r := dlfile o.resp o.dec .syspackagesJson fs2
          let tr3 := tr2 ++ [.dl .syspackagesJson]
          match r.1 with
          | .ok _ =>
            match r.2.get .syspackagesJson with
            | none => (.err .io, r.2, tr3)
            | some content =>
              match o.parse content with
              | .error _ => (.err .parse, r.2, tr3)
              | .ok base =>
                let out := encodeFlat (normalizeCatalog base)
                (.ok (), r.2.set .syspackagesJson (some out),
                  tr3 ++ [.write .syspackagesJson out])
          | other => (other, r.2, tr3)

/-- Oracle inputs of `getlatestpkgs`: the parsed `nixos-version --json`
output, the git-revision probe response, and the catalog download
response/decompression. -/
structure LatestOracle : Type where
  cmd : CmdJson
  revResp : Except Unit HttpResp
  catResp : Except Unit HttpResp
  dec : Str → Decomp

/-- `getlatestpkgs` (cache.rs lines 132-178): the NewestPkgsProbe.  A
non-success status on the git-revision probe is only logged; the
routine then returns `Ok` without downloading. -/
def getlatestpkgs (o : LatestOracle) (fs : CacheFiles) :
    Outcome Unit × CacheFiles × List Event :=
  match o.cmd with
  | .cmdFail => (.err .process, fs, [])
  | .parseFail => (.err .parse, fs, [])
  | .parsed v =>
    match v.nixosVersion with
    | none => (.crash, fs, [])
    | some none => (.crash, fs, [])
    | some (some dlver) =>
      match relverLatest dlver with
      | none => (.crash, fs, [])
      | some _relver =>
        match o.revResp with
        | .error _ => (.err .network, fs, [])
        | .ok r =>
          if r.success then
            let newrev := r.body
            let dl : Bool :=
              match fs.get .newver with
              | some oldrev => decide (oldrev ≠ newrev)
              | none => true
            let fs1 := fs.set .newver (some newrev)
            let tr1 := [Event.write .newver newrev]
            if dl then
              let rr := dlfile o.catResp o.dec .packagesJson fs1
              (rr.1, rr.2, tr1 ++ [.dl .packagesJson])
            else
              (.ok (), fs1, tr1)
          else
            (.ok (), fs, [])

/-- Caller-supplied configuration.  Modelled from the spec: the
`NscConfig` type itself lives in src/parse/config.rs, outside the given
source; §3 describes it as "caller-supplied optional flake path, used
only by the Flake routine". -/
structure NscConfig : Type where
  flake : Option Str

/-- Oracle inputs of `setupflakepkgscache`: the parsed
`nixos-version --json` output, the `nix search` stdout, the
git-revision probe response, and the catalog download
response/decompression. -/
structure FlakeOracle : Type where
  cmd : CmdJson
  search : Except Unit Str
  revResp : Except Unit HttpResp
  catResp : Except Unit HttpResp
  dec : Str → Decomp

/-- The flake path used for `nix search` (cache.rs lines 288-295):
the configured path with a trailing "/flake.nix" stripped, defaulting
to "/etc/nixos". -/
def flakePathOf (config : NscConfig) : Str :=
  match config.flake with
  | some x => dropSuf (lit "/flake.nix") x
  | none => lit "/etc/nixos"

/-- The inner `writesyspkgs` helper of `setupflakepkgscache` (cache.rs
lines 275-286): run `nix search` and capture its stdout verbatim into
the given file. -/
def writesyspkgs (search : Except Unit Str) (path : Str) (dest : FileId)
    (fs : CacheFiles) : Outcome Unit × CacheFiles × List Event :=
  match search with
  | .error _ => (.err .process, fs, [])
  | .ok out => (.ok (), fs.set dest (some out), [.search path, .write dest out])

/-- `setupflakepkgscache` (cache.rs lines 245-340). -/
def setupflakepkgscache (o : FlakeOracle) (config : NscConfig) (fs : CacheFiles) :
    Outcome Unit × CacheFiles × List Event :=
  let st0 : CacheFiles × List Event :=
    match fs.get .chnver with
    | some _ => (fs.set .chnver none, [.remove .chnver])
    | none => (fs, [])
  let fs0 := st0.1
  let tr0 := st0.2
  match o.cmd with
  | .cmdFail => (.err .process, fs0, tr0)
  | .parseFail => (.err .parse, fs0, tr0)
  | .parsed v =>
    match v.nixpkgsRevision with
    | none => (.crash, fs0, tr0)
    | some optRev =>
      let rev := optRev.getD (lit "unknown")
      match v.nixosVersion with
      | none => (.crash, fs0, tr0)
      | some none => (.crash, fs0, tr0)
      | some (some dlver) =>
        match relverFlake dlver with
        | none => (.crash, fs0, tr0)
        | some _relver =>
          let flakepath := flakePathOf config
          let stepA : Outcome Unit × CacheFiles × List Event :=
            match fs0.get .flakever with
            | none =>
              let fsA := fs0.set .flakever (some rev)
              let trA := tr0 ++ [Event.write .flakever rev]
              let w := writesyspkgs o.search flakepath .syspackagesJson fsA
              (w.1, w.2.1, trA ++ w.2.2)
            | some oldver =>
              if oldver = rev then (.ok (), fs0, tr0)
              else
                let fsA := fs0.set .flakever (some rev)
                let trA := tr0 ++ [Event.write .flakever rev]
                let w := writesyspkgs o.search flakepath .syspackagesJson fsA
                (w.1, w.2.1, trA ++ w.2.2)
          match stepA with
          | (.ok _, fsB, trB) =>
            let stepB : Outcome Unit × CacheFiles × List Event :=
              match fsB.get .syspackagesJson with
              | none =>
                let w := writesyspkgs o.search flakepath .syspackagesJson fsB
                (w.1, w.2.1, trB ++ w.2.2)
              | some _ => (.ok (), fsB, trB)
            match stepB with
            | (.ok _, fsC, trC) =>
              match o.revResp with
              | .error _ => (.err .network, fsC, trC)
              | .ok r =>
                if r.success then
                  let newrev := r.body
                  let dl : Bool :=
                    match fsC.get .newver with
                    | some oldrev => decide (oldrev ≠ newrev)
                    | none => true
                  let fsD := fsC.set .newver (some newrev)
                  let trD := trC ++ [Event.write .newver newrev]
                  if dl then
                    let rr := dlfile o.catResp o.dec .packagesJson fsD
                    (rr.1, rr.2, trD ++ [.dl .packagesJson])
                  else
                    (.ok (), fsD, trD)
                else
                  (.ok (), fsC, trC)
            | other => other
          | other => other

/-- Oracle inputs of `setupprofilepkgscache`: the GitHub commit-metadata
response (client build and send errors collapsed into the network
error), the `serde_json`-parsing of its body extracting the "sha"
field, and the catalog download response/decompression. -/
structure ProfileOracle : Type where
  resp : Except Unit HttpResp
  shaParse : Str → Except Unit (Option (Option Str))
  catResp : Except Unit HttpResp
  dec : Str → Decomp

/-- `setupprofilepkgscache` (cache.rs lines 342-386). -/
def setupprofilepkgscache (o : ProfileOracle) (fs : CacheFiles) :
    Outcome Unit × CacheFiles × List Event :=
  let st0 : CacheFiles × List Event :=
    match fs.get .chnver with
    | some _ => (fs.set .chnver none, [.remove .chnver])
    | none => (fs, [])
  let fs0 := st0.1
  let tr0 := st0.2
  match o.resp with
  | .error _ => (.err .network, fs0, tr0)
  | .ok r =>
    if r.success then
      match o.shaParse r.body with
      | .error _ => (.err .parse, fs0, tr0)
      | .ok none => (.crash, fs0, tr0)
      | .ok (some none) => (.crash, fs0, tr0)
      | .ok (some (some profilerev)) =>
        match fs0.get .profilever with
        | none =>
          let fs1 := fs0.set .profilever (some profilerev)
          let tr1 := tr0 ++ [Event.write .profilever profilerev]
          let rr := dlfile o.catResp o.dec .profilepackagesJson fs1
          (rr.1, rr.2, tr1 ++ [.dl .profilepackagesJson])
        | some oldver =>
          if oldver = profilerev then (.ok (), fs0, tr0)
          else
            let fs1 := fs0.set .profilever (some profilerev)
            let tr1 := tr0 ++ [Event.write .profilever profilerev]
            let rr := dlfile o.catResp o.dec .profilepackagesJson fs1
            (rr.1, rr.2, tr1 ++ [.dl .profilepackagesJson])
    else
      (.ok (), fs0, tr0)

/-! ## uptodateflake (cache.rs lines 77-96) -/

/-- The comparison core of `uptodateflake`, as a function of the two
file contents: `none` when the trimmed contents are equal, otherwise
the pair shortened to the first 8 bytes when both fit. -/
def uptodateflakePair (oldC newC : Str) : Option (Str × Str) :=
  let oldversion := trimStr oldC
  let newversion := trimStr newC
  if oldversion = newversion then none
  else
    match getTo oldversion 8, getTo newversion 8 with
    | some oldv, some newv => some (oldv, newv)
    | _, _ => some (oldversion, newversion)

/-- `uptodateflake`: reads flakever.txt and newver.txt (`?` on the read
propagates an I/O error when either is absent) and compares. -/
def uptodateflake (fs : CacheFiles) : Outcome (Option (Str × Str)) :=
  match fs.get .flakever with
  | none => .err .io
  | some oldC =>
    match fs.get .newver with
    | none => .err .io
    | some newC => .ok (uptodateflakePair oldC newC)

/-! ## The dispatcher (checkcache, cache.rs lines 29-59) -/

/-- `SystemPkgs`.  Modelled from the spec: the enum lives in
src/ui/window.rs, outside the given source; §3 gives the system package
source as \x7bLegacy, Flake, None\x7d. -/
inductive SystemPkgs : Type
  | Legacy
  | Flake
  | None
deriving DecidableEq

/-- `UserPkgs`.  Modelled from the spec: the enum lives in
src/ui/window.rs, outside the given source; §3 gives the user package
source as \x7bEnv, Profile, None\x7d. -/
inductive UserPkgs : Type
  | Env
  | Profile
  | None
deriving DecidableEq

/-- The refresh routines, named as the spec components name them. -/
inductive Routine : Type
  | legacy
  | update
  | newest
  | flakeR
  | latest
  | profile
deriving DecidableEq

/-- Dispatcher-level state: cache files plus the accumulated event
trace and the list of routines invoked so far. -/
structure St : Type where
  fs : CacheFiles
  events : List Event
  routines : List Routine
deriving DecidableEq

/-- The oracle inputs of every routine the dispatcher may invoke. -/
structure Oracles : Type where
  legacy : LegacyOracle
  update : UpdateOracle
  newest : NewestOracle
  flake : FlakeOracle
  latest : LatestOracle
  profile : ProfileOracle

/-- Invoke one routine, recording its name and appending its events. -/
def runR (name : Routine)
    (f : CacheFiles → Outcome Unit × CacheFiles × List Event)
    (s : St) : Outcome Unit × St :=
  match f s.fs with
  | (o, fs', ev) => (o, ⟨fs', s.events ++ ev, s.routines ++ [name]⟩)

/-- Sequence two dispatcher steps, stopping at the first `Err` or
panic (the `?` operator in `checkcache`). -/
def andThen (x : Outcome Unit × St) (k : St → Outcome Unit × St) :
    Outcome Unit × St :=
  match x with
  | (.ok _, s) => k s
  | (.err e, s) => (.err e, s)
  | (.crash, s) => (.crash, s)

/-- Model of `.unwrap()` applied to a routine result: an `Err` becomes
a panic. -/
def unwrapR (x : Outcome Unit × St) : Outcome Unit × St :=
  match x with
  | (.ok a, s) => (.ok a, s)
  | (.err _, s) => (.crash, s)
  | (.crash, s) => (.crash, s)

/-- `checkcache` (cache.rs lines 29-59), the SourceModeDispatcher:
literal translation of the match on `syspkgs` followed by the two `if`
statements on `userpkgs`. -/
def checkcache (syspkgs : SystemPkgs) (userpkgs : UserPkgs)
    (config : NscConfig) (o : Oracles) (fs : CacheFiles) :
    Outcome Unit × St :=
  let s0 : St := ⟨fs, [], []⟩
  andThen
    (match syspkgs with
     | .Legacy =>
       andThen (runR .legacy (setuplegacypkgscache o.legacy) s0) (fun s1 =>
       andThen (runR .update (setupupdatecache o.update) s1) (fun s2 =>
       runR .newest (setupnewestver o.newest) s2))
     | .Flake => runR .flakeR (setupflakepkgscache o.flake config) s0
     | .None =>
       if userpkgs = .Profile then
         unwrapR (runR .latest (getlatestpkgs o.latest) s0)
       else (.ok (), s0))
    (fun s3 =>
  andThen
    (if userpkgs = .Env ∧ syspkgs ≠ .Legacy then
       andThen (runR .update (setupupdatecache o.update) s3) (fun s4 =>
       runR .newest (setupnewestver o.newest) s4)
     else (.ok (), s3))
    (fun s5 =>
  if userpkgs = .Profile then
    runR .profile (setupprofilepkgscache o.profile) s5
  else (.ok (), s5)))

/-- The dispatch table of spec §4.1 / claim C6, read off the claim's
wording: the system-mode block, then the Env block (when the system
mode is not Legacy), then the Profile block. -/
def dispatchTable (s : SystemPkgs) (u : UserPkgs) : List Routine :=
  (match s with
   | .Legacy => [.legacy, .update, .newest]
   | .Flake => [.flakeR]
   | .None => if u = .Profile then [.latest] else [])
  ++ (if u = .Env ∧ s ≠ .Legacy then [.update, .newest] else [])
  ++ (if u = .Profile then [.profile] else [])

/-- The implementation behind each routine name. -/
def routineImpl (o : Oracles) (config : NscConfig) :
    Routine → CacheFiles → Outcome Unit × CacheFiles × List Event
  | .legacy => setuplegacypkgscache o.legacy
  | .update => setupupdatecache o.update
  | .newest => setupnewestver o.newest
  | .flakeR => setupflakepkgscache o.flake config
  | .latest => getlatestpkgs o.latest
  | .profile => setupprofilepkgscache o.profile

/-- Invoke a routine by name; the latest-pkgs probe is the one call
whose result `checkcache` unwraps instead of propagating. -/
def callR (o : Oracles) (config : NscConfig) (r : Routine) (s : St) :
    Outcome Unit × St :=
  if r = .latest then unwrapR (runR r (routineImpl o config r) s)
  else runR r (routineImpl o config r) s

/-- Run a list of routines in order, stopping at the first failure. -/
def runList (o : Oracles) (config : NscConfig) :
    List Routine → St → Outcome Unit × St
  | [], s => (.ok (), s)
  | r :: rs, s => andThen (callR o config r s) (runList o config rs)

/-! ## Dispatcher structure lemmas -/

theorem andThen_ok (s : St) (k : St → Outcome Unit × St) :
    andThen (.ok (), s) k = k s := rfl

theorem andThen_err (e : CacheErr) (s : St) (k : St → Outcome Unit × St) :
    andThen (.err e, s) k = (.err e, s) := rfl

theorem andThen_crash (s : St) (k : St → Outcome Unit × St) :
    andThen (.crash, s) k = (.crash, s) := rfl

theorem andThen_assoc (x : Outcome Unit × St)
    (k1 k2 : St → Outcome Unit × St) :
    andThen (andThen x k1) k2 = andThen x (fun s => andThen (k1 s) k2) := by
  rcases x with ⟨o, s⟩
  cases o <;> rfl

theorem andThen_pure (x : Outcome Unit × St) :
    andThen x (fun s => (.ok (), s)) = x := by
  rcases x with ⟨o, s⟩
  cases o with
  | ok a => cases a; rfl
  | err e => rfl
  | crash => rfl

theorem runR_st (name : Routine)
    (f : CacheFiles → Outcome Unit × CacheFiles × List Event) (s : St) :
    (runR name f s).2 =
      ⟨(f s.fs).2.1, s.events ++ (f s.fs).2.2, s.routines ++ [name]⟩ := by
  rcases h : f s.fs with ⟨o, fs', ev⟩
  simp [runR, h]

theorem unwrapR_st (x : Outcome Unit × St) : (unwrapR x).2 = x.2 := by
  rcases x with ⟨o, s⟩
  cases o <;> rfl

theorem callR_routines (o : Oracles) (cfg : NscConfig) (r : Routine) (s : St) :
    (callR o cfg r s).2.routines = s.routines ++ [r] := by
  unfold callR
  by_cases h : r = Routine.latest <;>
    simp [h, unwrapR_st, runR_st]

/-- The dispatcher is the first-error-stops fold of the routines in the
dispatch table (with the latest-pkgs probe result unwrapped). -/
theorem checkcache_eq_runList (s : SystemPkgs) (u : UserPkgs)
    (cfg : NscConfig) (o : Oracles) (fs : CacheFiles) :
    checkcache s u cfg o fs = runList o cfg (dispatchTable s u) ⟨fs, [], []⟩ := by
  cases s <;> cases u <;>
    simp [checkcache, dispatchTable, runList, callR, routineImpl,
      andThen_assoc, andThen_pure, andThen_ok]

theorem runList_routines_ok (o : Oracles) (cfg : NscConfig)
    (rs : List Routine) (s : St)
    (h : (runList o cfg rs s).1 = .ok ()) :
    (runList o cfg rs s).2.routines = s.routines ++ rs := by
  induction rs generalizing s with
  | nil => simp [runList]
  | cons r rest ih =>
    rcases hc : callR o cfg r s with ⟨oc, sc⟩
    have hr : sc.routines = s.routines ++ [r] := by
      have := callR_routines o cfg r s
      rw [hc] at this
      exact this
    cases oc with
    | ok a =>
      cases a
      rw [runList, hc, andThen_ok] at h ⊢
      rw [ih sc h, hr, List.append_assoc]
      rfl
    | err e =>
      rw [runList, hc, andThen_err] at h
      exact absurd h (by simp)
    | crash =>
      rw [runList, hc, andThen_crash] at h
      exact absurd h (by simp)

/-! ## Splitting and joining are mutually inverse -/

theorem splitOnC_ne_nil (c : Char) (s : Str) : splitOnC c s ≠ [] := by
  cases s with
  | nil => simp [splitOnC]
  | cons a rest =>
    unfold splitOnC
    by_cases hac : a = c
    · simp [hac]
    · simp only [hac, if_false]
      cases hsp : splitOnC c rest <;> simp

theorem joinWith_splitOnC (c : Char) (s : Str) :
    joinWith [c] (splitOnC c s) = s := by
  induction s with
  | nil => rfl
  | cons a rest ih =>
    unfold splitOnC
    by_cases hac : a = c
    · rw [if_pos hac]
      cases hsp : splitOnC c rest with
      | nil => exact absurd hsp (splitOnC_ne_nil c rest)
      | cons h t =>
        rw [hsp] at ih
        show List.append ([] ++ [c]) (joinWith [c] (h :: t)) = a :: rest
        rw [hac]
        simp only [List.nil_append, List.cons_append, List.nil_append] at ih ⊢
        rw [List.append_eq, List.singleton_append, ih]
    · rw [if_neg hac]
      cases hsp : splitOnC c rest with
      | nil => exact absurd hsp (splitOnC_ne_nil c rest)
      | cons h t =>
        rw [hsp] at ih
        cases t with
        | nil =>
          show a :: h = a :: rest
          rw [show joinWith [c] [h] = h from rfl] at ih
          rw [ih]
        | cons t1 t2 =>
          show List.append ((a :: h) ++ [c]) (joinWith [c] (t1 :: t2)) = a :: rest
          rw [← ih]
          show a :: (h ++ [c] ++ joinWith [c] (t1 :: t2)) =
            a :: joinWith [c] (h :: t1 :: t2)
          rfl

theorem len_joinWith_splitOnC (c : Char) (s : Str) :
    (joinWith [c] (splitOnC c s)).len = s.len := by
  rw [joinWith_splitOnC]

theorem relverLegacy_none_iff (s : Str) :
    relverLegacy s = none ↔ s.len < 5 := by
  unfold relverLegacy sliceTo
  rw [show lit "." = [('.' : Char)] from rfl, joinWith_splitOnC]
  by_cases h5 : 5 ≤ s.len
  · rw [if_pos h5]
    simp only []
    constructor
    · intro h
      split at h <;> exact absurd h (by simp)
    · intro h
      omega
  · rw [if_neg h5]
    simp only []
    constructor
    · intro _
      omega
    · intro _
      trivial

theorem relverNewest_none_iff (s : Str) :
    relverNewest s = none ↔ s.len < 5 := by
  unfold relverNewest sliceTo
  rw [show lit "." = [('.' : Char)] from rfl, joinWith_splitOnC]
  by_cases h5 : 5 ≤ s.len
  · rw [if_pos h5]
    simp only []
    constructor
    · intro h
      split at h <;> exact absurd h (by simp)
    · intro h
      omega
  · rw [if_neg h5]
    simp only []
    constructor
    · intro _
      omega
    · intro _
      trivial

/-! ## Concrete fixtures used by witnesses and counterexamples -/

/-- A cache state in which every marker matches the oracles below and
every catalog file is present. -/
def fsAll : CacheFiles :=
  ⟨some (lit "23.05"), some (lit "23.05"), some (lit "23.05"),
   some (lit "r1"), some (lit "sha1"),
   some (lit "P"), some (lit "S"), some (lit "Q")⟩

/-- Legacy oracle: evaluator prints "23.05" (quoted, with newline). -/
def oLegacyOk : LegacyOracle :=
  ⟨.ok (lit "\"23.05\"\n"), .ok ⟨true, lit "B", lit "u"⟩, fun _ => .done (lit "C")⟩

/-- EnvUpdate oracle: same evaluator output; parse yields one package. -/
def oUpdateOk : UpdateOracle :=
  ⟨.outOk (lit "\"23.05\"\n"), .ok ⟨true, lit "B", lit "u"⟩, fun _ => .done (lit "C"),
   fun _ => .ok ⟨[(lit "foo", ⟨lit "1.0"⟩)]⟩⟩

/-- NewestVersionProbe oracle: the channel alias resolves to
".../nixos-23.05". -/
def oNewestOk : NewestOracle :=
  ⟨.outOk (lit "\"23.05\"\n"), .ok ⟨true, lit "", lit "a/nixos-23.05"⟩⟩

/-- Flake oracle whose probes all succeed and report the values stored
in `fsAll`. -/
def oFlakeOk : FlakeOracle :=
  ⟨.parsed ⟨some (some (lit "23.05")), some (some (lit "r1"))⟩,
   .ok (lit "J"), .ok ⟨true, lit "23.05", lit "u"⟩, .ok ⟨true, lit "B", lit "u"⟩,
   fun _ => .done (lit "C")⟩

/-- NewestPkgsProbe oracle that fails at the very first step (the
`nixos-version` process). -/
def oLatestFail : LatestOracle :=
  ⟨.cmdFail, .error (), .error (), fun _ => .done []⟩

/-- NewestPkgsProbe oracle whose git-revision probe answers with a
non-success HTTP status. -/
def oLatestSwallow : LatestOracle :=
  ⟨.parsed ⟨some (some (lit "23.05")), none⟩, .ok ⟨false, lit "", lit "u"⟩,
   .error (), fun _ => .done []⟩

/-- Profile oracle matching `fsAll` (commit "sha1", already stored). -/
def oProfileOk : ProfileOracle :=
  ⟨.ok ⟨true, lit "G", lit "u"⟩, fun _ => .ok (some (some (lit "sha1"))),
   .ok ⟨true, lit "B", lit "u"⟩, fun _ => .done (lit "C")⟩

/-- All oracles; the latest-pkgs probe is the failing one. -/
def oraclesOk : Oracles :=
  ⟨oLegacyOk, oUpdateOk, oNewestOk, oFlakeOk, oLatestFail, oProfileOk⟩

/-- An empty configuration (no flake path). -/
def cfgNone : NscConfig := ⟨none⟩

/-! ## Claims -/

/-- Claim C5: when dlfile receives a non-success (non-2xx) HTTP status
for the requested URL, it returns an error and does not open, create,
truncate, or write the destination path: any pre-existing destination
file is byte-for-byte unchanged. -/
theorem claim_C5 (r : HttpResp) (dec : Str → Decomp) (path : FileId)
    (fs : CacheFiles) (h : r.success = false) :
    dlfile (.ok r) dec path fs = (.err .download, fs) := by
  simp [dlfile, h]

theorem claim_C5_witness :
    dlfile (.ok ⟨false, lit "B", lit "u"⟩) (fun _ => .done []) .packagesJson fsAll
      = (.err .download, fsAll) :=
  claim_C5 ⟨false, lit "B", lit "u"⟩ (fun _ => .done []) .packagesJson fsAll rfl

/-- Claim C7: release-identifier derivation maps "23.05" to "23.05" (on
the legacy/env path and on the flake path); maps "22.11" to "unstable"
on the flake path; and maps "23.05pre123456.abcd" to "unstable" on the
legacy/env path because its 6th-8th characters are "pre". -/
theorem claim_C7 :
    relverLegacy (lit "23.05") = some (lit "23.05")
    ∧ relverFlake (lit "23.05") = some (lit "23.05")
    ∧ relverFlake (lit "22.11") = some (lit "unstable")
    ∧ relverLegacy (lit "23.05pre123456.abcd") = some (lit "unstable") := by
  refine ⟨?_, ?_, ?_, ?_⟩ <;> decide

/-- Claim C8: the EnvUpdate catalog normalization maps each package
attribute name of the raw document to that entry's version field; in
particular the raw document with single entry foo ↦ version "1.0"
yields the flat mapping foo ↦ "1.0". -/
theorem claim_C8 :
    (∀ (b : NewPackageBase) (n v : Str),
      (n, NewPackage.mk v) ∈ b.packages → (n, v) ∈ normalizeCatalog b)
    ∧ normalizeCatalog ⟨[(lit "foo", ⟨lit "1.0"⟩)]⟩ = [(lit "foo", lit "1.0")] := by
  constructor
  · intro b n v h
    exact List.mem_map_of_mem (fun p => (p.1, p.2.version)) h
  · rfl

theorem claim_C8_witness :
    (lit "foo", lit "1.0") ∈ normalizeCatalog ⟨[(lit "foo", ⟨lit "1.0"⟩)]⟩ :=
  claim_C8.1 ⟨[(lit "foo", ⟨lit "1.0"⟩)]⟩ (lit "foo") (lit "1.0") (by decide)

/-- Claim C9: uptodateflake returns None exactly when the trimmed
contents of flakever.txt and newver.txt are equal; when they differ, if
both trimmed strings are at least 8 bytes long it returns Some of only
the first 8 characters of each string, and otherwise Some of the two
full trimmed strings. -/
theorem claim_C9 :
    (∀ a b : Str, uptodateflakePair a b = none ↔ trimStr a = trimStr b)
    ∧ (∀ a b : Str, trimStr a ≠ trimStr b →
        8 ≤ (trimStr a).len → 8 ≤ (trimStr b).len →
        uptodateflakePair a b
          = some (List.take 8 (trimStr a), List.take 8 (trimStr b)))
    ∧ (∀ a b : Str, trimStr a ≠ trimStr b →
        ((trimStr a).len < 8 ∨ (trimStr b).len < 8) →
        uptodateflakePair a b = some (trimStr a, trimStr b))
    ∧ (∀ (fs : CacheFiles) (a b : Str),
        fs.get .flakever = some a → fs.get .newver = some b →
        uptodateflake fs = .ok (uptodateflakePair a b)) := by
  refine ⟨?_, ?_, ?_, ?_⟩
  · intro a b
    unfold uptodateflakePair
    by_cases h : trimStr a = trimStr b
    · simp [h]
    · simp only [if_neg h]
      constructor
      · intro hc
        split at hc <;> simp at hc
      · intro hc
        exact absurd hc h
  · intro a b h h8a h8b
    unfold uptodateflakePair getTo
    rw [if_neg h, if_pos h8a, if_pos h8b]
  · intro a b h hlt
    unfold uptodateflakePair getTo
    rw [if_neg h]
    rcases hlt with h8 | h8
    · rw [if_neg (by omega : ¬ 8 ≤ (trimStr a).len)]
    · rw [if_neg (by omega : ¬ 8 ≤ (trimStr b).len)]
      split <;> simp_all
  · intro fs a b ha hb
    unfold uptodateflake
    rw [ha, hb]

theorem claim_C9_witness :
    uptodateflakePair (lit "aaaaaaaaaa") (lit "bbbbbbbbbb")
      = some (lit "aaaaaaaa", lit "bbbbbbbb")
    ∧ uptodateflakePair (lit "a") (lit "b") = some (lit "a", lit "b")
    ∧ uptodateflake fsAll = .ok (uptodateflakePair (lit "r1") (lit "23.05")) :=
  ⟨by
    have := claim_C9.2.1 (lit "aaaaaaaaaa") (lit "bbbbbbbbbb")
      (by decide) (by decide) (by decide)
    simpa using this,
   by
    have := claim_C9.2.2.1 (lit "a") (lit "b") (by decide) (Or.inl (by decide))
    simpa using this,
   claim_C9.2.2.2 fsAll (lit "r1") (lit "23.05") rfl rfl⟩

/-- Claim C10: release-identifier derivation is partial: it indexes the
version string with the unguarded range 0..5, so whenever the cleaned
evaluator output is shorter than 5 bytes the routine panics instead of
returning an error; under the precondition that the cleaned version is
at least 5 bytes the slice is in bounds, and the "pre" check is
separately guarded by the length-at-least-8 test. -/
theorem claim_C10 :
    (∀ s : Str, relverLegacy s = none ↔ s.len < 5)
    ∧ (∀ s : Str, relverNewest s = none ↔ s.len < 5)
    ∧ (∀ (o : LegacyOracle) (fs : CacheFiles) (stdout : Str),
        o.cmd = .ok stdout → (trimStr (removeQuotes stdout)).len < 5 →
        (setuplegacypkgscache o fs).1 = .crash)
    ∧ (∀ (o : UpdateOracle) (fs : CacheFiles) (stdout : Str),
        o.cmd = .outOk stdout → (trimStr (removeQuotes stdout)).len < 5 →
        (setupupdatecache o fs).1 = .crash)
    ∧ (∀ (o : NewestOracle) (fs : CacheFiles) (stdout : Str),
        o.cmd = .outOk stdout → (removeQuotes stdout).len < 5 →
        (setupnewestver o fs).1 = .crash) := by
  refine ⟨relverLegacy_none_iff, relverNewest_none_iff, ?_, ?_, ?_⟩
  · intro o fs stdout hc hl
    have hn : relverLegacy (trimStr (removeQuotes stdout)) = none :=
      (relverLegacy_none_iff _).2 hl
    simp [setuplegacypkgscache, hc, hn]
  · intro o fs stdout hc hl
    have hn : relverLegacy (trimStr (removeQuotes stdout)) = none :=
      (relverLegacy_none_iff _).2 hl
    simp [setupupdatecache, hc, hn]
  · intro o fs stdout hc hl
    have hn : relverNewest (removeQuotes stdout) = none :=
      (relverNewest_none_iff _).2 hl
    simp [setupnewestver, hc, hn]

/-- Evaluator output "1.0" (too short for the 0..5 slice). -/
def oLegacyShort : LegacyOracle :=
  ⟨.ok (lit "\"1.0\"\n"), .error (), fun _ => .done []⟩

/-- Evaluator output "1.0" for the EnvUpdate routine. -/
def oUpdateShort : UpdateOracle :=
  ⟨.outOk (lit "\"1.0\"\n"), .error (), fun _ => .done [], fun _ => .error ()⟩

/-- Evaluator output "1.0" for the newest-version probe. -/
def oNewestShort : NewestOracle := ⟨.outOk (lit "\"1.0\"\n"), .error ()⟩

theorem claim_C10_witness :
    (setuplegacypkgscache oLegacyShort fsAll).1 = .crash
    ∧ (setupupdatecache oUpdateShort fsAll).1 = .crash
    ∧ (setupnewestver oNewestShort fsAll).1 = .crash :=
  ⟨claim_C10.2.2.1 oLegacyShort fsAll (lit "\"1.0\"\n") rfl (by decide),
   claim_C10.2.2.2.1 oUpdateShort fsAll (lit "\"1.0\"\n") rfl (by decide),
   claim_C10.2.2.2.2 oNewestShort fsAll (lit "\"1.0\"\n") rfl (by decide)⟩

/-- Claim C6: for every (systemMode, userMode, config) input, checkcache
invokes exactly the routines given by the dispatch table — Legacy:
legacy refresh then EnvUpdate refresh then NewestVersionProbe; Flake:
flake refresh only; None with userMode Profile: the best-effort probe;
additionally EnvUpdate refresh then NewestVersionProbe when userMode is
Env and systemMode is not Legacy, and Profile refresh whenever userMode
is Profile — in that order and no others, returning unit on success. -/
theorem claim_C6 (s : SystemPkgs) (u : UserPkgs) (cfg : NscConfig)
    (o : Oracles) (fs : CacheFiles)
    (h : (checkcache s u cfg o fs).1 = .ok ()) :
    (checkcache s u cfg o fs).2.routines = dispatchTable s u := by
  rw [checkcache_eq_runList] at h ⊢
  have := runList_routines_ok o cfg (dispatchTable s u) ⟨fs, [], []⟩ h
  simpa using this

theorem claim_C6_witness :
    (checkcache .Legacy .Profile cfgNone oraclesOk fsAll).1 = .ok ()
    ∧ (checkcache .Legacy .Profile cfgNone oraclesOk fsAll).2.routines
        = dispatchTable .Legacy .Profile :=
  ⟨by decide, claim_C6 .Legacy .Profile cfgNone oraclesOk fsAll (by decide)⟩

/-- Claim C1 counterexample: with systemMode None and userMode Profile,
a failing getlatestpkgs (the nixos-version process errors) does NOT
leave checkcache returning success: the `.unwrap()` panics. -/
theorem claim_C1_counterexample :
    (getlatestpkgs oraclesOk.latest fsAll).1 = .err .process
    ∧ (checkcache .None .Profile cfgNone oraclesOk fsAll).1 ≠ .ok () := by
  exact ⟨by decide, by decide⟩

/-- Claim C1 (amended): every error arising inside a `?`-sequenced
refresh routine propagates as the first error to checkcache, which
returns it to its caller — stated below for every routine at every
position of every dispatch branch (Legacy chain, Flake branch, the Env
block, and the Profile step); the (systemMode=None, userMode=Profile)
combination is the exception, but not by swallowing: an Err from
getlatestpkgs is turned into a panic by `.unwrap()`, so checkcache does
not return success there.  The genuinely swallowed failure is internal
to getlatestpkgs: a non-success HTTP status on its git-revision probe
is only logged and the probe returns Ok without fetching. -/
theorem claim_C1_amended :
    (∀ (u : UserPkgs) (cfg : NscConfig) (o : Oracles) (fs : CacheFiles)
       (e : CacheErr),
      (setuplegacypkgscache o.legacy fs).1 = .err e →
      (checkcache .Legacy u cfg o fs).1 = .err e)
    ∧ (∀ (u : UserPkgs) (cfg : NscConfig) (o : Oracles) (fs fs1 : CacheFiles)
         (ev1 : List Event) (e : CacheErr),
      setuplegacypkgscache o.legacy fs = (.ok (), fs1, ev1) →
      (setupupdatecache o.update fs1).1 = .err e →
      (checkcache .Legacy u cfg o fs).1 = .err e)
    ∧ (∀ (u : UserPkgs) (cfg : NscConfig) (o : Oracles)
         (fs fs1 fs2 : CacheFiles) (ev1 ev2 : List Event) (e : CacheErr),
      setuplegacypkgscache o.legacy fs = (.ok (), fs1, ev1) →
      setupupdatecache o.update fs1 = (.ok (), fs2, ev2) →
      (setupnewestver o.newest fs2).1 = .err e →
      (checkcache .Legacy u cfg o fs).1 = .err e)
    ∧ (∀ (cfg : NscConfig) (o : Oracles) (fs fs1 fs2 fs3 : CacheFiles)
         (ev1 ev2 ev3 : List Event) (e : CacheErr),
      setuplegacypkgscache o.legacy fs = (.ok (), fs1, ev1) →
      setupupdatecache o.update fs1 = (.ok (), fs2, ev2) →
      setupnewestver o.newest fs2 = (.ok (), fs3, ev3) →
      (setupprofilepkgscache o.profile fs3).1 = .err e →
      (checkcache .Legacy .Profile cfg o fs).1 = .err e)
    ∧ (∀ (u : UserPkgs) (cfg : NscConfig) (o : Oracles) (fs : CacheFiles)
         (e : CacheErr),
      (setupflakepkgscache o.flake cfg fs).1 = .err e →
      (checkcache .Flake u cfg o fs).1 = .err e)
    ∧ (∀ (cfg : NscConfig) (o : Oracles) (fs fs1 : CacheFiles)
         (ev1 : List Event) (e : CacheErr),
      setupflakepkgscache o.flake cfg fs = (.ok (), fs1, ev1) →
      (setupupdatecache o.update fs1).1 = .err e →
      (checkcache .Flake .Env cfg o fs).1 = .err e)
    ∧ (∀ (cfg : NscConfig) (o : Oracles) (fs fs1 fs2 : CacheFiles)
         (ev1 ev2 : List Event) (e : CacheErr),
      setupflakepkgscache o.flake cfg fs = (.ok (), fs1, ev1) →
      setupupdatecache o.update fs1 = (.ok (), fs2, ev2) →
      (setupnewestver o.newest fs2).1 = .err e →
      (checkcache .Flake .Env cfg o fs).1 = .err e)
    ∧ (∀ (cfg : NscConfig) (o : Oracles) (fs fs1 : CacheFiles)
         (ev1 : List Event) (e : CacheErr),
      setupflakepkgscache o.flake cfg fs = (.ok (), fs1, ev1) →
      (setupprofilepkgscache o.profile fs1).1 = .err e →
      (checkcache .Flake .Profile cfg o fs).1 = .err e)
    ∧ (∀ (cfg : NscConfig) (o : Oracles) (fs : CacheFiles) (e : CacheErr),
      (setupupdatecache o.update fs).1 = .err e →
      (checkcache .None .Env cfg o fs).1 = .err e)
    ∧ (∀ (cfg : NscConfig) (o : Oracles) (fs fs1 : CacheFiles)
         (ev1 : List Event) (e : CacheErr),
      setupupdatecache o.update fs = (.ok (), fs1, ev1) →
      (setupnewestver o.newest fs1).1 = .err e →
      (checkcache .None .Env cfg o fs).1 = .err e)
    ∧ (∀ (cfg : NscConfig) (o : Oracles) (fs : CacheFiles) (e : CacheErr),
      (getlatestpkgs o.latest fs).1 = .err e →
      (checkcache .None .Profile cfg o fs).1 = .crash)
    ∧ (∀ (cfg : NscConfig) (o : Oracles) (fs fs1 : CacheFiles)
         (ev1 : List Event) (e : CacheErr),
      getlatestpkgs o.latest fs = (.ok (), fs1, ev1) →
      (setupprofilepkgscache o.profile fs1).1 = .err e →
      (checkcache .None .Profile cfg o fs).1 = .err e)
    ∧ (∀ (o : LatestOracle) (fs : CacheFiles) (v : VersionJson)
         (dlver rv : Str) (r : HttpResp),
      o.cmd = .parsed v → v.nixosVersion = some (some dlver) →
      relverLatest dlver = some rv → o.revResp = .ok r → r.success = false →
      getlatestpkgs o fs = (.ok (), fs, [])) := by
  refine ⟨?_, ?_, ?_, ?_, ?_, ?_, ?_, ?_, ?_, ?_, ?_, ?_, ?_⟩
  · intro u cfg o fs e h
    rw [checkcache_eq_runList]
    rcases hr : setuplegacypkgscache o.legacy fs with ⟨o1, fs1, ev1⟩
    rw [hr] at h
    simp only [] at h
    subst h
    simp [dispatchTable, runList, callR, routineImpl, runR, hr, andThen_err]
  · intro u cfg o fs fs1 ev1 e h1 h2
    rw [checkcache_eq_runList]
    rcases hr : setupupdatecache o.update fs1 with ⟨o2, fs2, ev2⟩
    rw [hr] at h2
    simp only [] at h2
    subst h2
    simp [dispatchTable, runList, callR, routineImpl, runR, h1, hr,
      andThen_ok, andThen_err]
  · intro u cfg o fs fs1 fs2 ev1 ev2 e h1 h2 h3
    rw [checkcache_eq_runList]
    rcases hr : setupnewestver o.newest fs2 with ⟨o3, fs3, ev3⟩
    rw [hr] at h3
    simp only [] at h3
    subst h3
    simp [dispatchTable, runList, callR, routineImpl, runR, h1, h2, hr,
      andThen_ok, andThen_err]
  · intro cfg o fs fs1 fs2 fs3 ev1 ev2 ev3 e h1 h2 h3 h4
    rw [checkcache_eq_runList]
    rcases hr : setupprofilepkgscache o.profile fs3 with ⟨o4, fs4, ev4⟩
    rw [hr] at h4
    simp only [] at h4
    subst h4
    simp [dispatchTable, runList, callR, routineImpl, runR, h1, h2, h3, hr,
      andThen_ok, andThen_err]
  · intro u cfg o fs e h
    rw [checkcache_eq_runList]
    rcases hr : setupflakepkgscache o.flake cfg fs with ⟨o1, fs1, ev1⟩
    rw [hr] at h
    simp only [] at h
    subst h
    simp [dispatchTable, runList, callR, routineImpl, runR, hr, andThen_err]
  · intro cfg o fs fs1 ev1 e h1 h2
    rw [checkcache_eq_runList]
    rcases hr : setupupdatecache o.update fs1 with ⟨o2, fs2, ev2⟩
    rw [hr] at h2
    simp only [] at h2
    subst h2
    simp [dispatchTable, runList, callR, routineImpl, runR, h1, hr,
      andThen_ok, andThen_err]
  · intro cfg o fs fs1 fs2 ev1 ev2 e h1 h2 h3
    rw [checkcache_eq_runList]
    rcases hr : setupnewestver o.newest fs2 with ⟨o3, fs3, ev3⟩
    rw [hr] at h3
    simp only [] at h3
    subst h3
    simp [dispatchTable, runList, callR, routineImpl, runR, h1, h2, hr,
      andThen_ok, andThen_err]
  · intro cfg o fs fs1 ev1 e h1 h2
    rw [checkcache_eq_runList]
    rcases hr : setupprofilepkgscache o.profile fs1 with ⟨o2, fs2, ev2⟩
    rw [hr] at h2
    simp only [] at h2
    subst h2
    simp [dispatchTable, runList, callR, routineImpl, runR, h1, hr,
      andThen_ok, andThen_err]
  · intro cfg o fs e h
    rw [checkcache_eq_runList]
    rcases hr : setupupdatecache o.update fs with ⟨o1, fs1, ev1⟩
    rw [hr] at h
    simp only [] at h
    subst h
    simp [dispatchTable, runList, callR, routineImpl, runR, hr, andThen_err]
  · intro cfg o fs fs1 ev1 e h1 h2
    rw [checkcache_eq_runList]
    rcases hr : setupnewestver o.newest fs1 with ⟨o2, fs2, ev2⟩
    rw [hr] at h2
    simp only [] at h2
    subst h2
    simp [dispatchTable, runList, callR, routineImpl, runR, h1, hr,
      andThen_ok, andThen_err]
  · intro cfg o fs e h
    rw [checkcache_eq_runList]
    rcases hr : getlatestpkgs o.latest fs with ⟨o1, fs1, ev1⟩
    rw [hr] at h
    simp only [] at h
    subst h
    simp [dispatchTable, runList, callR, routineImpl, runR, unwrapR, hr,
      andThen_crash]
  · intro cfg o fs fs1 ev1 e h1 h2
    rw [checkcache_eq_runList]
    rcases hr : setupprofilepkgscache o.profile fs1 with ⟨o2, fs2, ev2⟩
    rw [hr] at h2
    simp only [] at h2
    subst h2
    simp [dispatchTable, runList, callR, routineImpl, runR, unwrapR, h1, hr,
      andThen_ok, andThen_err]
  · intro o fs v dlver rv r hc hv hrel hresp hs
    simp [getlatestpkgs, hc, hv, hrel, hresp, hs]

/-- EnvUpdate oracle failing at the nix-instantiate step. -/
def oUpdateFail : UpdateOracle :=
  ⟨.cmdFail, .error (), fun _ => .done [], fun _ => .error ()⟩

/-- Oracles whose legacy routine succeeds on `fsAll` and whose
env-update routine fails. -/
def oraclesUpdFail : Oracles :=
  ⟨oLegacyOk, oUpdateFail, oNewestOk, oFlakeOk, oLatestFail, oProfileOk⟩

theorem claim_C1_witness :
    (checkcache .Legacy .None cfgNone oraclesUpdFail fsAll).1 = .err .process
    ∧ (checkcache .None .Profile cfgNone oraclesOk fsAll).1 = .crash
    ∧ getlatestpkgs oLatestSwallow fsAll = (.ok (), fsAll, []) :=
  ⟨claim_C1_amended.2.1 .None cfgNone oraclesUpdFail fsAll fsAll []
      .process (by decide) (by decide),
   claim_C1_amended.2.2.2.2.2.2.2.2.2.2.1 cfgNone oraclesOk fsAll .process
      (by decide),
   claim_C1_amended.2.2.2.2.2.2.2.2.2.2.2.2 oLatestSwallow fsAll
     ⟨some (some (lit "23.05")), none⟩ (lit "23.05") (lit "23.05")
     ⟨false, lit "", lit "u"⟩ rfl rfl (by decide) rfl rfl⟩

/-! ## Trimming is idempotent -/

theorem trimStr_eq_rdropWhile (s : Str) :
    trimStr s = List.rdropWhile isWS (List.dropWhile isWS s) := rfl

theorem trimStr_idem (s : Str) : trimStr (trimStr s) = trimStr s := by
  rw [trimStr_eq_rdropWhile s, trimStr_eq_rdropWhile]
  have hXid : List.dropWhile isWS (List.dropWhile isWS s)
      = List.dropWhile isWS s :=
    List.dropWhile_idempotent isWS s
  set X := List.dropWhile isWS s with hX
  have h1 : List.dropWhile isWS (List.rdropWhile isWS X)
      = List.rdropWhile isWS X := by
    rcases hR : List.rdropWhile isWS X with _ | ⟨a, t⟩
    · rfl
    · have hpre : List.rdropWhile isWS X <+: X := List.rdropWhile_prefix isWS X
      rw [hR] at hpre
      rcases hpre with ⟨u, hu⟩
      have hXa : X = a :: (t ++ u) := by
        rw [← hu]
        simp
      have ha : ¬ (isWS a = true) := by
        intro hc
        have h2 := hXid
        rw [hXa, List.dropWhile_cons_of_pos hc] at h2
        have hlen := congrArg List.length h2
        have hle : (List.dropWhile isWS (t ++ u)).length ≤ (t ++ u).length :=
          (List.dropWhile_suffix isWS).length_le
        simp at hlen hle
        omega
      rw [List.dropWhile_cons_of_neg ha]
  rw [h1, List.rdropWhile_idempotent]

theorem CacheFiles.get_set_self (fs : CacheFiles) (p : FileId) (v : Option Str) :
    (fs.set p v).get p = v := by
  cases p <;> rfl

theorem CacheFiles.get_set_ne (fs : CacheFiles) (p f : FileId) (v : Option Str)
    (h : f ≠ p) : (fs.set p v).get f = fs.get f := by
  cases p <;> cases f <;> simp_all [CacheFiles.set, CacheFiles.get]

/-- dlfile never touches any file other than its destination. -/
theorem dlfile_get_of_ne (resp : Except Unit HttpResp) (dec : Str → Decomp)
    (path : FileId) (fs : CacheFiles) (f : FileId) (h : f ≠ path) :
    ((dlfile resp dec path fs).2).get f = fs.get f := by
  unfold dlfile
  cases resp with
  | error e => rfl
  | ok r =>
    by_cases hs : r.success = true
    · simp only [hs, if_true]
      cases dec r.body <;> simp [CacheFiles.get_set_ne _ _ _ _ h]
    · simp only [hs]
      simp [hs]

/-- NewestPkgsProbe oracle whose git-revision probe succeeds with the
revision already stored in `fsAll`. -/
def oLatestIdem : LatestOracle :=
  ⟨.parsed ⟨some (some (lit "23.05")), none⟩, .ok ⟨true, lit "23.05", lit "u"⟩,
   .error (), fun _ => .done []⟩

/-- `fsAll` with the chnver marker absent. -/
def fsNoChn : CacheFiles :=
  ⟨none, some (lit "23.05"), some (lit "23.05"), some (lit "r1"),
   some (lit "sha1"), some (lit "P"), some (lit "S"), some (lit "Q")⟩

/-- Claim C4 counterexample: with the chnver marker absent but
packages.json present, the legacy routine succeeds WITHOUT any catalog
fetch (it creates the marker, then hits the early-return guard). -/
theorem claim_C4_counterexample :
    fsNoChn.get .chnver = none
    ∧ fsNoChn.get .packagesJson ≠ none
    ∧ (setuplegacypkgscache oLegacyOk fsNoChn).1 = .ok ()
    ∧ (setuplegacypkgscache oLegacyOk fsNoChn).2.2.any Event.isDl = false := by
  exact ⟨rfl, by decide, by decide, by decide⟩

/-- Claim C4 (amended): in the legacy routine, a mismatched chnver
marker, or a missing packages.json, leads to the marker being rewritten
with the new version and the catalog being fetched; an ABSENT marker is
first created with the new version, after which the catalog is fetched
only when packages.json is also missing — an absent marker with an
existing packages.json yields the marker write and no fetch. -/
theorem claim_C4_amended :
    (∀ (o : LegacyOracle) (fs : CacheFiles) (stdout c rv : Str),
      o.cmd = .ok stdout →
      relverLegacy (trimStr (removeQuotes stdout)) = some rv →
      fs.get .chnver = some c →
      trimStr c ≠ trimStr (removeQuotes stdout) →
      ((setuplegacypkgscache o fs).2.1).get .chnver
          = some (trimStr (removeQuotes stdout))
      ∧ (setuplegacypkgscache o fs).2.2.any Event.isDl = true)
    ∧ (∀ (o : LegacyOracle) (fs : CacheFiles) (stdout rv : Str),
      o.cmd = .ok stdout →
      relverLegacy (trimStr (removeQuotes stdout)) = some rv →
      fs.get .packagesJson = none →
      ((setuplegacypkgscache o fs).2.1).get .chnver
          = some (trimStr (removeQuotes stdout))
      ∧ (setuplegacypkgscache o fs).2.2.any Event.isDl = true)
    ∧ (∀ (o : LegacyOracle) (fs : CacheFiles) (stdout rv p : Str),
      o.cmd = .ok stdout →
      relverLegacy (trimStr (removeQuotes stdout)) = some rv →
      fs.get .chnver = none →
      fs.get .packagesJson = some p →
      setuplegacypkgscache o fs
        = (.ok (), fs.set .chnver (some (trimStr (removeQuotes stdout))),
           [.write .chnver (trimStr (removeQuotes stdout))])) := by
  refine ⟨?_, ?_, ?_⟩
  · intro o fs stdout c rv hc hrel hch hne
    have hd : FileId.chnver ≠ FileId.packagesJson := by decide
    constructor
    · simp [setuplegacypkgscache, hc, hrel, hch, hne,
        dlfile_get_of_ne _ _ _ _ _ hd, CacheFiles.get_set_self]
    · simp [setuplegacypkgscache, hc, hrel, hch, hne, Event.isDl]
  · intro o fs stdout rv hc hrel hpk
    have hd : FileId.chnver ≠ FileId.packagesJson := by decide
    rcases hch : fs.get .chnver with _ | c
    · have hg1 : (fs.set .chnver (some (trimStr (removeQuotes stdout)))).get .chnver
          = some (trimStr (removeQuotes stdout)) :=
        CacheFiles.get_set_self fs .chnver _
      have hg2 : (fs.set .chnver (some (trimStr (removeQuotes stdout)))).get .packagesJson
          = fs.get .packagesJson :=
        CacheFiles.get_set_ne fs .chnver .packagesJson _ (by decide)
      constructor
      · simp [setuplegacypkgscache, hc, hrel, hch, hpk, hg1, hg2,
          dlfile_get_of_ne _ _ _ _ _ hd, CacheFiles.get_set_self]
      · simp [setuplegacypkgscache, hc, hrel, hch, hpk, hg1, hg2, Event.isDl]
    · constructor
      · simp [setuplegacypkgscache, hc, hrel, hch, hpk,
          dlfile_get_of_ne _ _ _ _ _ hd, CacheFiles.get_set_self]
      · simp [setuplegacypkgscache, hc, hrel, hch, hpk, Event.isDl]
  · intro o fs stdout rv p hc hrel hch hpk
    have hg1 : (fs.set .chnver (some (trimStr (removeQuotes stdout)))).get .chnver
        = some (trimStr (removeQuotes stdout)) :=
      CacheFiles.get_set_self fs .chnver _
    have hg2 : (fs.set .chnver (some (trimStr (removeQuotes stdout)))).get .packagesJson
        = fs.get .packagesJson :=
      CacheFiles.get_set_ne fs .chnver .packagesJson _ (by decide)
    have htrim := trimStr_idem (removeQuotes stdout)
    simp [setuplegacypkgscache, hc, hrel, hch, hpk, hg1, hg2, htrim]

theorem claim_C4_witness :
    setuplegacypkgscache oLegacyOk fsNoChn
      = (.ok (), fsNoChn.set .chnver (some (lit "23.05")),
         [.write .chnver (lit "23.05")]) := by
  have h := claim_C4_amended.2.2 oLegacyOk fsNoChn (lit "\"23.05\"\n")
    (lit "23.05") (lit "P") rfl (by decide) rfl rfl
  simpa using h

/-- Claim C2 counterexample: in the flake routine with every marker
matching the freshly queried values and every guarded catalog file
present, the call still performs a marker-file write (it unconditionally
rewrites newver.txt after a successful git-revision probe), refuting
"zero marker-file writes". -/
theorem claim_C2_counterexample :
    fsNoChn.get .flakever = some (lit "r1")
    ∧ oFlakeOk.cmd = .parsed ⟨some (some (lit "23.05")), some (some (lit "r1"))⟩
    ∧ fsNoChn.get .syspackagesJson ≠ none
    ∧ fsNoChn.get .newver = some (lit "23.05")
    ∧ (setupflakepkgscache oFlakeOk cfgNone fsNoChn).1 = .ok ()
    ∧ (setupflakepkgscache oFlakeOk cfgNone fsNoChn).2.2.any Event.isMarkerWrite
        = true := by
  refine ⟨rfl, rfl, by decide, rfl, by decide, by decide⟩

/-- Claim C2 (amended): with the freshly queried upstream version equal
to the stored marker value and the guarded catalog file present, the
legacy, env-update, newest-version and profile routines perform zero
catalog fetches and zero writes (state and trace unchanged); the flake
routine and the newest-pkgs probe likewise perform zero catalog fetches
and leave every file byte-for-byte unchanged, but do rewrite the newver
marker with the identical just-probed revision. -/
theorem claim_C2_amended :
    (∀ (o : LegacyOracle) (fs : CacheFiles) (stdout c rv : Str),
      o.cmd = .ok stdout →
      relverLegacy (trimStr (removeQuotes stdout)) = some rv →
      fs.get .chnver = some c →
      trimStr c = trimStr (removeQuotes stdout) →
      (fs.get .packagesJson).isSome = true →
      setuplegacypkgscache o fs = (.ok (), fs, []))
    ∧ (∀ (o : UpdateOracle) (fs : CacheFiles) (stdout c rv : Str),
      o.cmd = .outOk stdout →
      relverLegacy (trimStr (removeQuotes stdout)) = some rv →
      fs.get .sysver = some c →
      trimStr c = trimStr (removeQuotes stdout) →
      (fs.get .syspackagesJson).isSome = true →
      setupupdatecache o fs = (.ok (), fs, []))
    ∧ (∀ (o : NewestOracle) (fs : CacheFiles) (stdout rv seg : Str)
         (r : HttpResp),
      o.cmd = .outOk stdout →
      relverNewest (removeQuotes stdout) = some rv →
      o.resp = .ok r →
      (splitOnC '/' r.finalUrl).getLast? = some seg →
      fs.get .newver = some (dropPre (lit "nixos-") seg) →
      setupnewestver o fs = (.ok (), fs, []))
    ∧ (∀ (o : ProfileOracle) (fs : CacheFiles) (r : HttpResp) (sha : Str),
      fs.get .chnver = none →
      o.resp = .ok r → r.success = true →
      o.shaParse r.body = .ok (some (some sha)) →
      fs.get .profilever = some sha →
      setupprofilepkgscache o fs = (.ok (), fs, []))
    ∧ (∀ (o : FlakeOracle) (cfg : NscConfig) (fs : CacheFiles)
         (v : VersionJson) (rev dlver rv sp : Str) (r : HttpResp),
      fs.get .chnver = none →
      o.cmd = .parsed v →
      v.nixpkgsRevision = some (some rev) →
      v.nixosVersion = some (some dlver) →
      relverFlake dlver = some rv →
      fs.get .flakever = some rev →
      fs.get .syspackagesJson = some sp →
      o.revResp = .ok r → r.success = true →
      fs.get .newver = some r.body →
      setupflakepkgscache o cfg fs = (.ok (), fs, [.write .newver r.body]))
    ∧ (∀ (o : LatestOracle) (fs : CacheFiles) (v : VersionJson)
         (dlver rv : Str) (r : HttpResp),
      o.cmd = .parsed v →
      v.nixosVersion = some (some dlver) →
      relverLatest dlver = some rv →
      o.revResp = .ok r → r.success = true →
      fs.get .newver = some r.body →
      getlatestpkgs o fs = (.ok (), fs, [.write .newver r.body])) := by
  refine ⟨?_, ?_, ?_, ?_, ?_, ?_⟩
  · intro o fs stdout c rv hc hrel hch hm hpk
    simp [setuplegacypkgscache, hc, hrel, hch, hm, hpk]
  · intro o fs stdout c rv hc hrel hch hm hpk
    simp [setupupdatecache, hc, hrel, hch, hm, hpk]
  · intro o fs stdout rv seg r hc hrel hresp hseg hnv
    simp [setupnewestver, hc, hrel, hresp, hseg, hnv]
  · intro o fs r sha hch hresp hs hsha hpv
    simp [setupprofilepkgscache, hch, hresp, hs, hsha, hpv]
  · intro o cfg fs v rev dlver rv sp r hch hc hrev hver hrel hfl hsp hresp hs hnv
    have hset : fs.set .newver (some r.body) = fs := by
      rw [← hnv]
      exact CacheFiles.set_get_self fs .newver
    simp [setupflakepkgscache, hch, hc, hrev, hver, hrel, hfl, hsp, hresp,
      hs, hnv, hset]
  · intro o fs v dlver rv r hc hver hrel hresp hs hnv
    have hset : fs.set .newver (some r.body) = fs := by
      rw [← hnv]
      exact CacheFiles.set_get_self fs .newver
    simp [getlatestpkgs, hc, hver, hrel, hresp, hs, hnv, hset]

theorem claim_C2_witness :
    setuplegacypkgscache oLegacyOk fsAll = (.ok (), fsAll, [])
    ∧ setupupdatecache oUpdateOk fsAll = (.ok (), fsAll, [])
    ∧ setupnewestver oNewestOk fsAll = (.ok (), fsAll, [])
    ∧ setupprofilepkgscache oProfileOk fsNoChn = (.ok (), fsNoChn, [])
    ∧ setupflakepkgscache oFlakeOk cfgNone fsNoChn
        = (.ok (), fsNoChn, [.write .newver (lit "23.05")])
    ∧ getlatestpkgs oLatestIdem fsAll
        = (.ok (), fsAll, [.write .newver (lit "23.05")]) :=
  ⟨claim_C2_amended.1 oLegacyOk fsAll (lit "\"23.05\"\n") (lit "23.05")
      (lit "23.05") rfl (by decide) rfl (by decide) (by decide),
   claim_C2_amended.2.1 oUpdateOk fsAll (lit "\"23.05\"\n") (lit "23.05")
      (lit "23.05") rfl (by decide) rfl (by decide) (by decide),
   claim_C2_amended.2.2.1 oNewestOk fsAll (lit "\"23.05\"\n") (lit "23.05")
      (lit "nixos-23.05") ⟨true, lit "", lit "a/nixos-23.05"⟩ rfl (by decide)
      rfl (by decide) (by decide),
   claim_C2_amended.2.2.2.1 oProfileOk fsNoChn ⟨true, lit "G", lit "u"⟩
      (lit "sha1") rfl rfl rfl rfl rfl,
   claim_C2_amended.2.2.2.2.1 oFlakeOk cfgNone fsNoChn
      ⟨some (some (lit "23.05")), some (some (lit "r1"))⟩ (lit "r1")
      (lit "23.05") (lit "23.05") (lit "S") ⟨true, lit "23.05", lit "u"⟩
      rfl rfl rfl rfl (by decide) rfl rfl rfl rfl rfl,
   claim_C2_amended.2.2.2.2.2 oLatestIdem fsAll
      ⟨some (some (lit "23.05")), none⟩ (lit "23.05") (lit "23.05")
      ⟨true, lit "23.05", lit "u"⟩ rfl rfl (by decide) rfl rfl rfl⟩

theorem CacheFiles.set_set (fs : CacheFiles) (p : FileId) (v w : Option Str) :
    (fs.set p v).set p w = fs.set p w := by
  cases fs; cases p <;> rfl

/-- `fsAll` with a trailing newline inside the stored newver marker. -/
def fsNl : CacheFiles :=
  ⟨some (lit "23.05"), some (lit "23.05"), some (lit "23.05\n"),
   some (lit "r1"), some (lit "sha1"),
   some (lit "P"), some (lit "S"), some (lit "Q")⟩

/-- Claim C3 counterexample: the newver comparison in `setupnewestver`
does not trim: a stored "23.05\n" against a probed "23.05" trims to the
same string, yet the routine removes and rewrites the marker (a refresh
is triggered). -/
theorem claim_C3_counterexample :
    trimStr (lit "23.05\n") = trimStr (lit "23.05")
    ∧ fsNl.get .newver = some (lit "23.05\n")
    ∧ setupnewestver oNewestOk fsNl
        = (.ok (), fsNl.set .newver (some (lit "23.05")),
           [.remove .newver, .write .newver (lit "23.05")]) := by
  refine ⟨by decide, rfl, by decide⟩

/-- Claim C3 (amended): only the chnver comparison of the legacy
routine and the sysver comparison of the env-update routine compare
after trimming (the stored value is trimmed; the candidate was already
trimmed when derived), so trim-equal stored values trigger no refresh
there; the flakever, newver and profilever comparisons are raw
byte-for-byte string equality without trimming, so raw-different values
trigger a refresh even when both sides trim to the same string. -/
theorem claim_C3_amended :
    (∀ (o : LegacyOracle) (fs : CacheFiles) (stdout c rv : Str),
      o.cmd = .ok stdout →
      relverLegacy (trimStr (removeQuotes stdout)) = some rv →
      fs.get .chnver = some c →
      trimStr c = trimStr (removeQuotes stdout) →
      (fs.get .packagesJson).isSome = true →
      setuplegacypkgscache o fs = (.ok (), fs, []))
    ∧ (∀ (o : UpdateOracle) (fs : CacheFiles) (stdout c rv : Str),
      o.cmd = .outOk stdout →
      relverLegacy (trimStr (removeQuotes stdout)) = some rv →
      fs.get .sysver = some c →
      trimStr c = trimStr (removeQuotes stdout) →
      (fs.get .syspackagesJson).isSome = true →
      setupupdatecache o fs = (.ok (), fs, []))
    ∧ (∀ (o : NewestOracle) (fs : CacheFiles) (stdout rv seg c : Str)
         (r : HttpResp),
      o.cmd = .outOk stdout →
      relverNewest (removeQuotes stdout) = some rv →
      o.resp = .ok r →
      (splitOnC '/' r.finalUrl).getLast? = some seg →
      fs.get .newver = some c →
      c ≠ dropPre (lit "nixos-") seg →
      setupnewestver o fs
        = (.ok (), fs.set .newver (some (dropPre (lit "nixos-") seg)),
           [.remove .newver, .write .newver (dropPre (lit "nixos-") seg)]))
    ∧ (∀ (o : FlakeOracle) (cfg : NscConfig) (fs : CacheFiles)
         (v : VersionJson) (rev dlver rv c out : Str) (r : HttpResp),
      fs.get .chnver = none →
      o.cmd = .parsed v →
      v.nixpkgsRevision = some (some rev) →
      v.nixosVersion = some (some dlver) →
      relverFlake dlver = some rv →
      fs.get .flakever = some c →
      c ≠ rev →
      o.search = .ok out →
      o.revResp = .ok r → r.success = true →
      fs.get .newver = some r.body →
      setupflakepkgscache o cfg fs
        = (.ok (),
           (fs.set .flakever (some rev)).set .syspackagesJson (some out),
           [.write .flakever rev, .search (flakePathOf cfg),
            .write .syspackagesJson out, .write .newver r.body]))
    ∧ (∀ (o : ProfileOracle) (fs : CacheFiles) (r : HttpResp) (sha c : Str),
      fs.get .chnver = none →
      o.resp = .ok r → r.success = true →
      o.shaParse r.body = .ok (some (some sha)) →
      fs.get .profilever = some c →
      c ≠ sha →
      (setupprofilepkgscache o fs).2.2
          = [.write .profilever sha, .dl .profilepackagesJson]
      ∧ ((setupprofilepkgscache o fs).2.1).get .profilever = some sha) := by
  refine ⟨?_, ?_, ?_, ?_, ?_⟩
  · intro o fs stdout c rv hc hrel hch hm hpk
    simp [setuplegacypkgscache, hc, hrel, hch, hm, hpk]
  · intro o fs stdout c rv hc hrel hch hm hpk
    simp [setupupdatecache, hc, hrel, hch, hm, hpk]
  · intro o fs stdout rv seg c r hc hrel hresp hseg hnv hne
    simp [setupnewestver, hc, hrel, hresp, hseg, hnv, hne,
      CacheFiles.set_set]
  · intro o cfg fs v rev dlver rv c out r hch hc hrev hver hrel hfl hne
      hsearch hresp hs hnv
    have hX2 : ((fs.set .flakever (some rev)).set .syspackagesJson
        (some out)).get .newver = fs.get .newver := by
      rw [CacheFiles.get_set_ne _ _ _ _ (by decide),
        CacheFiles.get_set_ne _ _ _ _ (by decide)]
    have hset : ((fs.set .flakever (some rev)).set .syspackagesJson
        (some out)).set .newver (some r.body)
        = (fs.set .flakever (some rev)).set .syspackagesJson (some out) := by
      rw [← hnv, ← hX2]
      exact CacheFiles.set_get_self _ .newver
    have hXs : ((fs.set .flakever (some rev)).set .syspackagesJson
        (some out)).get .syspackagesJson = some out :=
      CacheFiles.get_set_self _ _ _
    simp [setupflakepkgscache, writesyspkgs, hch, hc, hrev, hver, hrel,
      hfl, hne, hsearch, hresp, hs, hnv, hset, hX2, hXs]
  · intro o fs r sha c hch hresp hs hsha hpv hne
    have hfr : ((dlfile o.catResp o.dec .profilepackagesJson
        (fs.set .profilever (some sha))).2).get .profilever
        = (fs.set .profilever (some sha)).get .profilever :=
      dlfile_get_of_ne _ _ _ _ _ (by decide)
    constructor
    · simp [setupprofilepkgscache, hch, hresp, hs, hsha, hpv, hne]
    · simp [setupprofilepkgscache, hch, hresp, hs, hsha, hpv, hne, hfr,
        CacheFiles.get_set_self]

/-- Legacy cache state whose chnver marker has surrounding whitespace. -/
def fsChnNl : CacheFiles :=
  ⟨some (lit " 23.05\n"), some (lit "23.05"), some (lit "23.05"),
   some (lit "r1"), some (lit "sha1"),
   some (lit "P"), some (lit "S"), some (lit "Q")⟩

/-- Flake cache state whose flakever marker mismatches revision r1. -/
def fsFlakeMis : CacheFiles :=
  ⟨none, some (lit "23.05"), some (lit "23.05"), some (lit "r0"),
   some (lit "sha1"), some (lit "P"), some (lit "S"), some (lit "Q")⟩

/-- Profile oracle reporting a new commit "sha2". -/
def oProfileMis : ProfileOracle :=
  ⟨.ok ⟨true, lit "G", lit "u"⟩, fun _ => .ok (some (some (lit "sha2"))),
   .ok ⟨true, lit "B", lit "u"⟩, fun _ => .done (lit "C")⟩

theorem claim_C3_witness :
    setuplegacypkgscache oLegacyOk fsChnNl = (.ok (), fsChnNl, [])
    ∧ setupnewestver oNewestOk fsNl
        = (.ok (), fsNl.set .newver (some (lit "23.05")),
           [.remove .newver, .write .newver (lit "23.05")])
    ∧ setupflakepkgscache oFlakeOk cfgNone fsFlakeMis
        = (.ok (),
           (fsFlakeMis.set .flakever (some (lit "r1"))).set .syspackagesJson
             (some (lit "J")),
           [.write .flakever (lit "r1"), .search (flakePathOf cfgNone),
            .write .syspackagesJson (lit "J"),
            .write .newver (lit "23.05")])
    ∧ ((setupprofilepkgscache oProfileMis fsNoChn).2.2
          = [.write .profilever (lit "sha2"), .dl .profilepackagesJson]
       ∧ ((setupprofilepkgscache oProfileMis fsNoChn).2.1).get .profilever
          = some (lit "sha2")) :=
  ⟨claim_C3_amended.1 oLegacyOk fsChnNl (lit "\"23.05\"\n") (lit " 23.05\n")
      (lit "23.05") rfl (by decide) rfl (by decide) (by decide),
   claim_C3_amended.2.2.1 oNewestOk fsNl (lit "\"23.05\"\n") (lit "23.05")
      (lit "nixos-23.05") (lit "23.05\n") ⟨true, lit "", lit "a/nixos-23.05"⟩
      rfl (by decide) rfl (by decide) rfl (by decide),
   claim_C3_amended.2.2.2.1 oFlakeOk cfgNone fsFlakeMis
      ⟨some (some (lit "23.05")), some (some (lit "r1"))⟩ (lit "r1")
      (lit "23.05") (lit "23.05") (lit "r0") (lit "J")
      ⟨true, lit "23.05", lit "u"⟩ rfl rfl rfl rfl (by decide) rfl
      (by decide) rfl rfl rfl rfl,
   claim_C3_amended.2.2.2.2 oProfileMis fsNoChn ⟨true, lit "G", lit "u"⟩
      (lit "sha2") (lit "sha1") rfl rfl rfl rfl rfl (by decide)⟩
